import Mathlib

/-!
Verification development for the Apple Health export converter
(`convert.py`).  The Python source is shallowly embedded: every pure
string normalizer becomes a Lean function on `String` / `List Char`, and
the streaming classifier of `parse_and_convert` becomes a step function
on an explicit state record, folded over a list of element events.
Regular-expression operations of the source are modelled character by
character over the ASCII alphabet they are used on.
-/

set_option maxRecDepth 8192

namespace Convert

/-- Characters matched by the whitespace class of the date-normalizer
regex (ASCII portion): space, tab, newline, carriage return, vertical
tab, form feed. -/
def isPySpace (c : Char) : Bool :=
  c == ' ' || c == '\t' || c == '\n' || c == '\r' ||
    c == Char.ofNat 11 || c == Char.ofNat 12

/-- The `TYPE_NAMES` exact-match table of `convert.py` lines 13-50. -/
def TYPE_NAMES : List (String × String) := [
  ("HKQuantityTypeIdentifierHeartRate", "heart_rate"),
  ("HKQuantityTypeIdentifierStepCount", "steps"),
  ("HKQuantityTypeIdentifierBloodGlucose", "blood_glucose"),
  ("HKQuantityTypeIdentifierActiveEnergyBurned", "active_energy"),
  ("HKQuantityTypeIdentifierBasalEnergyBurned", "basal_energy"),
  ("HKQuantityTypeIdentifierDistanceWalkingRunning", "distance_walking_running"),
  ("HKQuantityTypeIdentifierDistanceCycling", "distance_cycling"),
  ("HKQuantityTypeIdentifierOxygenSaturation", "oxygen_saturation"),
  ("HKQuantityTypeIdentifierBloodPressureSystolic", "blood_pressure_systolic"),
  ("HKQuantityTypeIdentifierBloodPressureDiastolic", "blood_pressure_diastolic"),
  ("HKQuantityTypeIdentifierFlightsClimbed", "flights_climbed"),
  ("HKQuantityTypeIdentifierHeartRateVariabilitySDNN", "heart_rate_variability"),
  ("HKQuantityTypeIdentifierRestingHeartRate", "resting_heart_rate"),
  ("HKQuantityTypeIdentifierWalkingHeartRateAverage", "walking_heart_rate_avg"),
  ("HKQuantityTypeIdentifierVO2Max", "vo2_max"),
  ("HKQuantityTypeIdentifierRespiratoryRate", "respiratory_rate"),
  ("HKQuantityTypeIdentifierBodyMass", "body_mass"),
  ("HKQuantityTypeIdentifierHeight", "height"),
  ("HKQuantityTypeIdentifierPhysicalEffort", "physical_effort"),
  ("HKQuantityTypeIdentifierEnvironmentalAudioExposure", "environmental_audio"),
  ("HKQuantityTypeIdentifierWalkingSpeed", "walking_speed"),
  ("HKQuantityTypeIdentifierWalkingStepLength", "walking_step_length"),
  ("HKQuantityTypeIdentifierWalkingDoubleSupportPercentage", "walking_double_support"),
  ("HKQuantityTypeIdentifierWalkingAsymmetryPercentage", "walking_asymmetry"),
  ("HKQuantityTypeIdentifierAppleWalkingSteadiness", "walking_steadiness"),
  ("HKQuantityTypeIdentifierAppleStandTime", "stand_time"),
  ("HKQuantityTypeIdentifierAppleExerciseTime", "exercise_time"),
  ("HKQuantityTypeIdentifierStairAscentSpeed", "stair_ascent_speed"),
  ("HKQuantityTypeIdentifierStairDescentSpeed", "stair_descent_speed"),
  ("HKQuantityTypeIdentifierTimeInDaylight", "time_in_daylight"),
  ("HKQuantityTypeIdentifierSixMinuteWalkTestDistance", "six_minute_walk_distance"),
  ("HKQuantityTypeIdentifierHeadphoneAudioExposure", "headphone_audio"),
  ("HKCategoryTypeIdentifierSleepAnalysis", "sleep_analysis"),
  ("HKCategoryTypeIdentifierAppleStandHour", "stand_hours"),
  ("HKCategoryTypeIdentifierAudioExposureEvent", "audio_exposure_events"),
  ("HKDataTypeSleepDurationGoal", "sleep_duration_goal")]

/-- The `BP_TYPES` set of `convert.py` lines 53-56: the two
blood-pressure component identifiers. -/
def BP_TYPES : List String := [
  "HKQuantityTypeIdentifierBloodPressureSystolic",
  "HKQuantityTypeIdentifierBloodPressureDiastolic"]

/-- The three known identifier markers stripped by the fallback branch of
`friendly_name` (`convert.py` line 67), in the order the loop tries
them. -/
def hkMarks : List String :=
  ["HKQuantityTypeIdentifier", "HKCategoryTypeIdentifier", "HKDataType"]

/-- Boolean prefix test on character lists. -/
def listStarts : List Char → List Char → Bool
  | [], _ => true
  | _ :: _, [] => false
  | a :: as, b :: bs => a == b && listStarts as bs

/-- The loop of `convert.py` lines 67-71: strip the first marker the
string starts with (then `break`), leaving the string unchanged when no
marker matches. -/
def stripHKPre : List String → String → String
  | [], s => s
  | p :: ps, s =>
      if listStarts p.toList s.toList then String.mk (s.toList.drop p.length)
      else stripHKPre ps s

/-- Models the regex substitution of line 73 that puts an underscore in
front of each ASCII uppercase letter, combined with the subsequent
lowering of the whole string. -/
def camelUnd : List Char → List Char
  | [] => []
  | c :: rest =>
    if c.isUpper then '_' :: c.toLower :: camelUnd rest
    else c.toLower :: camelUnd rest

/-- Models the strip call at the end of line 73: drop all leading
underscores. -/
def lstripUnd (l : List Char) : List Char := l.dropWhile (fun c => c == '_')

/-- Models the regex of line 75 that collapses every run of underscores
to a single underscore. -/
def collapseUnd : List Char → List Char
  | [] => []
  | [c] => [c]
  | a :: b :: rest =>
    if a == '_' && b == '_' then collapseUnd (b :: rest)
    else a :: collapseUnd (b :: rest)

/-- Model of `friendly_name`, `convert.py` lines 61-76: exact table lookup,
otherwise strip a known marker, insert underscores before uppercase
letters and lower, strip leading underscores, collapse underscore
runs. -/
def friendly_name (hk_type : String) : String :=
  match TYPE_NAMES.lookup hk_type with
  | some v => v
  | none =>
      String.mk (collapseUnd (lstripUnd (camelUnd (stripHKPre hkMarks hk_type).toList)))

/-- The fallback rule in the order the specification words it: strip a
known marker, insert underscores and lower, collapse underscore runs,
then remove leading underscores.  Stated from the spec sentence, to be
compared with the source-order `friendly_name`. -/
def claimFallback (hk_type : String) : String :=
  String.mk (lstripUnd (collapseUnd (camelUnd (stripHKPre hkMarks hk_type).toList)))

/-- True when the character list ends in the pattern of the
date-normalizer regex: one or more whitespace characters, a sign, and
exactly four digits. -/
def hasOffsetTail (l : List Char) : Bool :=
  match l.reverse with
  | d1 :: d2 :: d3 :: d4 :: s :: rest =>
      d1.isDigit && d2.isDigit && d3.isDigit && d4.isDigit &&
        (s == '+' || s == '-') &&
        (match rest with
         | r :: _ => isPySpace r
         | [] => false)
  | _ => false

/-- Removal performed by the regex substitution of `convert.py` line 84:
when the list ends in whitespace-run, sign, four digits, drop the four
digits, the sign, and the whole trailing whitespace run (the leftmost
match of the anchored pattern starts at the beginning of that run). -/
def stripOffset (l : List Char) : List Char :=
  if hasOffsetTail l then ((l.reverse.drop 5).dropWhile isPySpace).reverse
  else l

/-- Model of `clean_date`, `convert.py` lines 79-84.  Python falsiness of the
argument string is its emptiness. -/
def clean_date (date_str : String) : String :=
  if date_str.toList.isEmpty then "" else String.mk (stripOffset date_str.toList)

/-- Boolean substring test on character lists: the needle starts at some
position of the haystack. -/
def containsSub (needle : List Char) : List Char → Bool
  | [] => listStarts needle []
  | c :: rest => listStarts needle (c :: rest) || containsSub needle rest

/-- Left-to-right removal of every occurrence of `old`, as Python
`str.replace(old, "")` does for a non-empty `old`: on a match, the
matched characters are consumed (`k` counts characters still to drop)
and scanning resumes after them. -/
def removeAllGo (old : List Char) : List Char → Nat → List Char
  | [], _ => []
  | _ :: rest, Nat.succ k => removeAllGo old rest k
  | c :: rest, 0 =>
      if listStarts old (c :: rest) then removeAllGo old rest (old.length - 1)
      else c :: removeAllGo old rest 0

/-- Python `val.replace(old, "")` on strings. -/
def pyRemoveAll (old : String) (s : String) : String :=
  String.mk (removeAllGo old.toList s.toList 0)

/-- Marker string of `clean_bio_sex` (`convert.py` line 96). -/
def bioSexMark : String := "HKBiologicalSex"

/-- Marker string of `clean_blood_type` (`convert.py` line 101). -/
def bloodMark : String := "HKBloodType"

/-- Marker string of `clean_skin_type` (`convert.py` line 108). -/
def skinMark : String := "HKFitzpatrickSkinType"

/-- Marker string of `clean_workout_type` (`convert.py` line 58). -/
def workoutActivityMark : String := "HKWorkoutActivityType"

/-- Models the regex of `convert.py` line 103: put a space between each
ASCII lowercase letter immediately followed by an uppercase letter. -/
def insertSpaces : List Char → List Char
  | [] => []
  | [c] => [c]
  | a :: b :: rest =>
    if a.isLower && b.isUpper then a :: ' ' :: insertSpaces (b :: rest)
    else a :: insertSpaces (b :: rest)

/-- Model of `clean_bio_sex`, `convert.py` lines 94-96. -/
def clean_bio_sex (val : String) : String :=
  if val.toList.isEmpty then "" else pyRemoveAll bioSexMark val

/-- Model of `clean_blood_type`, `convert.py` lines 99-103. -/
def clean_blood_type (val : String) : String :=
  let name := if val.toList.isEmpty then "" else pyRemoveAll bloodMark val
  String.mk (insertSpaces name.toList)

/-- Model of `clean_skin_type`, `convert.py` lines 106-109. -/
def clean_skin_type (val : String) : String :=
  let name := if val.toList.isEmpty then "" else pyRemoveAll skinMark val
  String.mk (insertSpaces name.toList)

/-- Model of `clean_workout_type`, `convert.py` lines 87-91. -/
def clean_workout_type (activity_type : String) : String :=
  if listStarts workoutActivityMark.toList activity_type.toList then
    String.mk (activity_type.toList.drop workoutActivityMark.length)
  else activity_type

/-- An XML element: tag name and attribute list. -/
structure Elem where
  tag : String
  attrs : List (String × String)
deriving DecidableEq

/-- Attribute lookup `elem.get(key, "")`, defaulting to the empty
string. -/
def Elem.get (e : Elem) (k : String) : String :=
  match e.attrs.lookup k with
  | some v => v
  | none => ""

/-- One event of the streaming parse: element open or element close. -/
inductive XMLEvent where
  | startEv (e : Elem)
  | endEv (e : Elem)
deriving DecidableEq

/-- Row stored in a per-category record bucket (`convert.py` lines
163-170). -/
structure Row where
  source : String
  value : String
  unit : String
  start_date : String
  end_date : String
  creation_date : String
deriving DecidableEq

/-- Child record of a Correlation: the row fields plus the raw type
(`convert.py` lines 174-175). -/
structure ChildRec where
  type : String
  source : String
  value : String
  unit : String
  start_date : String
  end_date : String
  creation_date : String
deriving DecidableEq

/-- An in-progress or finalized Correlation (`convert.py` lines
139-146). -/
structure Corr where
  type : String
  sourceName : String
  creationDate : String
  startDate : String
  endDate : String
  records : List ChildRec
deriving DecidableEq

/-- A workout row (`convert.py` lines 189-201). -/
structure WorkoutRow where
  activity_type : String
  duration : String
  duration_unit : String
  total_distance : String
  distance_unit : String
  total_energy_burned : String
  energy_unit : String
  source : String
  start_date : String
  end_date : String
deriving DecidableEq

/-- An activity-summary row (`convert.py` lines 204-212). -/
structure SummaryRow where
  date : String
  active_energy_burned : String
  active_energy_burned_goal : String
  exercise_time : String
  exercise_time_goal : String
  stand_hours : String
  stand_hours_goal : String
deriving DecidableEq

/-- The profile singleton (`convert.py` lines 151-159). -/
structure ProfileRow where
  date_of_birth : String
  biological_sex : String
  blood_type : String
  skin_type : String
deriving DecidableEq

/-- The mutable state of `parse_and_convert` during the scan: the
buckets and the Correlation-tracking pair of lines 129-131.  The record
buckets keep dictionary insertion order of keys, with rows appended at
the end of their bucket. -/
structure ConvState where
  records : List (String × List Row)
  workouts : List WorkoutRow
  activity_summaries : List SummaryRow
  correlations : List Corr
  profile : Option ProfileRow
  in_correlation : Bool
  current_correlation : Option Corr
deriving DecidableEq

/-- State at the start of the scan (`convert.py` lines 121-131). -/
def initState : ConvState :=
  { records := [], workouts := [], activity_summaries := [],
    correlations := [], profile := none,
    in_correlation := false, current_correlation := none }

/-- Model of `records[name].append(row)` on a `defaultdict(list)`: append to the
existing bucket, or create the bucket at the end of the key order. -/
def appendBucket : List (String × List Row) → String → Row → List (String × List Row)
  | [], name, row => [(name, [row])]
  | (k, rs) :: rest, name, row =>
      if k == name then (k, rs ++ [row]) :: rest
      else (k, rs) :: appendBucket rest name row

/-- The row built from a closing `Record` element (`convert.py` lines
163-170). -/
def rowOfElem (e : Elem) : Row :=
  { source := e.get "sourceName",
    value := e.get "value",
    unit := e.get "unit",
    start_date := clean_date (e.get "startDate"),
    end_date := clean_date (e.get "endDate"),
    creation_date := clean_date (e.get "creationDate") }

/-- The Correlation child built from a closing `Record` element: its raw
type plus the row fields (`convert.py` lines 174-175). -/
def childOfElem (e : Elem) : ChildRec :=
  { type := e.get "type",
    source := e.get "sourceName",
    value := e.get "value",
    unit := e.get "unit",
    start_date := clean_date (e.get "startDate"),
    end_date := clean_date (e.get "endDate"),
    creation_date := clean_date (e.get "creationDate") }

/-- A fresh Correlation from an opening `Correlation` element
(`convert.py` lines 139-146). -/
def corrOfElem (e : Elem) : Corr :=
  { type := e.get "type",
    sourceName := e.get "sourceName",
    creationDate := e.get "creationDate",
    startDate := e.get "startDate",
    endDate := e.get "endDate",
    records := [] }

/-- The workout row from a closing `Workout` element (`convert.py` lines
189-201). -/
def workoutOfElem (e : Elem) : WorkoutRow :=
  { activity_type := clean_workout_type (e.get "workoutActivityType"),
    duration := e.get "duration",
    duration_unit := e.get "durationUnit",
    total_distance := e.get "totalDistance",
    distance_unit := e.get "totalDistanceUnit",
    total_energy_burned := e.get "totalEnergyBurned",
    energy_unit := e.get "totalEnergyBurnedUnit",
    source := e.get "sourceName",
    start_date := clean_date (e.get "startDate"),
    end_date := clean_date (e.get "endDate") }

/-- The activity-summary row from a closing `ActivitySummary` element
(`convert.py` lines 204-212). -/
def summaryOfElem (e : Elem) : SummaryRow :=
  { date := e.get "dateComponents",
    active_energy_burned := e.get "activeEnergyBurned",
    active_energy_burned_goal := e.get "activeEnergyBurnedGoal",
    exercise_time := e.get "appleExerciseTime",
    exercise_time_goal := e.get "appleExerciseTimeGoal",
    stand_hours := e.get "appleStandHours",
    stand_hours_goal := e.get "appleStandHoursGoal" }

/-- The profile from a closing `Me` element (`convert.py` lines
151-159). -/
def profileOfElem (e : Elem) : ProfileRow :=
  { date_of_birth := e.get "HKCharacteristicTypeIdentifierDateOfBirth",
    biological_sex := clean_bio_sex (e.get "HKCharacteristicTypeIdentifierBiologicalSex"),
    blood_type := clean_blood_type (e.get "HKCharacteristicTypeIdentifierBloodType"),
    skin_type := clean_skin_type (e.get "HKCharacteristicTypeIdentifierFitzpatrickSkinType") }

/-- One iteration of the event loop of `parse_and_convert`
(`convert.py` lines 133-215). -/
def step (st : ConvState) (ev : XMLEvent) : ConvState :=
  match ev with
  | .startEv e =>
      if e.tag == "Correlation" then
        { st with in_correlation := true, current_correlation := some (corrOfElem e) }
      else st
  | .endEv e =>
      if e.tag == "Me" then
        { st with profile := some (profileOfElem e) }
      else if e.tag == "Record" then
        if st.in_correlation && st.current_correlation.isSome then
          match st.current_correlation with
          | some c =>
              let c2 : Corr := { c with records := c.records ++ [childOfElem e] }
              { st with current_correlation := some c2 }
          | none => st
        else if BP_TYPES.contains (e.get "type") then st
        else
          { st with records :=
              appendBucket st.records (friendly_name (e.get "type")) (rowOfElem e) }
      else if e.tag == "Correlation" then
        let st1 :=
          match st.current_correlation with
          | some c => { st with correlations := st.correlations ++ [c] }
          | none => st
        { st1 with in_correlation := false, current_correlation := none }
      else if e.tag == "Workout" then
        { st with workouts := st.workouts ++ [workoutOfElem e] }
      else if e.tag == "ActivitySummary" then
        { st with activity_summaries := st.activity_summaries ++ [summaryOfElem e] }
      else st

/-- The whole scan: fold the step function over the event sequence. -/
def run (evs : List XMLEvent) : ConvState :=
  evs.foldl step initState

/-- The fold of `convert.py` lines 249-254 over the children of one
Correlation, accumulating (systolic, diastolic, unit). -/
def bpScan : List ChildRec → String × String × String → String × String × String
  | [], acc => acc
  | r :: rest, (s, d, u) =>
      if containsSub "Systolic".toList r.type.toList then bpScan rest (r.value, d, r.unit)
      else if containsSub "Diastolic".toList r.type.toList then bpScan rest (s, r.value, u)
      else bpScan rest (s, d, u)

/-- A derived blood-pressure row (`convert.py` lines 255-262). -/
structure BPRow where
  systolic : String
  diastolic : String
  unit : String
  source : String
  start_date : String
  end_date : String
deriving DecidableEq

/-- The blood-pressure row derived from one finalized Correlation
(`convert.py` lines 245-262). -/
def mkBpRow (c : Corr) : BPRow :=
  match bpScan c.records ("", "", "") with
  | (s, d, u) =>
      { systolic := s, diastolic := d, unit := u,
        source := c.sourceName,
        start_date := clean_date c.startDate,
        end_date := clean_date c.endDate }

/-- Column list of per-category record files (`convert.py` lines
230-231). -/
def record_fields : List String :=
  ["source", "value", "unit", "start_date", "end_date", "creation_date"]

/-- Column list of the blood-pressure file (`convert.py` lines
263-264). -/
def bp_fields : List String :=
  ["systolic", "diastolic", "unit", "source", "start_date", "end_date"]

/-- Column list of the workouts file (`convert.py` lines 275-278). -/
def workout_fields : List String :=
  ["activity_type", "duration", "duration_unit", "total_distance",
   "distance_unit", "total_energy_burned", "energy_unit", "source",
   "start_date", "end_date"]

/-- Column list of the activity-summary file (`convert.py` lines
289-292). -/
def summary_fields : List String :=
  ["date", "active_energy_burned", "active_energy_burned_goal",
   "exercise_time", "exercise_time_goal", "stand_hours", "stand_hours_goal"]

/-- Column list of the profile file (`convert.py` lines 303-304). -/
def profile_fields : List String :=
  ["date_of_birth", "biological_sex", "blood_type", "skin_type"]

/-- Cells of a record row in column order. -/
def Row.toCells (r : Row) : List String :=
  [r.source, r.value, r.unit, r.start_date, r.end_date, r.creation_date]

/-- Cells of a blood-pressure row in column order. -/
def BPRow.toCells (r : BPRow) : List String :=
  [r.systolic, r.diastolic, r.unit, r.source, r.start_date, r.end_date]

/-- Cells of a workout row in column order. -/
def WorkoutRow.toCells (r : WorkoutRow) : List String :=
  [r.activity_type, r.duration, r.duration_unit, r.total_distance,
   r.distance_unit, r.total_energy_burned, r.energy_unit, r.source,
   r.start_date, r.end_date]

/-- Cells of an activity-summary row in column order. -/
def SummaryRow.toCells (r : SummaryRow) : List String :=
  [r.date, r.active_energy_burned, r.active_energy_burned_goal,
   r.exercise_time, r.exercise_time_goal, r.stand_hours, r.stand_hours_goal]

/-- Cells of the profile row in column order. -/
def ProfileRow.toCells (r : ProfileRow) : List String :=
  [r.date_of_birth, r.biological_sex, r.blood_type, r.skin_type]

/-- Strict code-point lexicographic order on character lists, as Python
string comparison orders ASCII bucket names in `sorted(records)`. -/
def strLt : List Char → List Char → Bool
  | [], [] => false
  | [], _ :: _ => true
  | _ :: _, [] => false
  | a :: as, b :: bs => if a < b then true else if b < a then false else strLt as bs

/-- Insertion into a key-sorted bucket list. -/
def insBucket (x : String × List Row) : List (String × List Row) → List (String × List Row)
  | [] => [x]
  | y :: ys => if strLt x.1.toList y.1.toList then x :: y :: ys else y :: insBucket x ys

/-- Sorting the buckets by key, modelling `sorted(records)` of
`convert.py` line 232. -/
def sortBuckets : List (String × List Row) → List (String × List Row)
  | [] => []
  | x :: xs => insBucket x (sortBuckets xs)

/-- One output CSV file: path, header fields, data rows as cells. -/
structure OutFile where
  path : String
  fields : List String
  rows : List (List String)
deriving DecidableEq

/-- The write phase of `parse_and_convert` (`convert.py` lines 227-311):
category files in sorted key order, then blood pressure when at least
one Correlation was finalized, then workouts, activity summaries and
profile when non-empty. -/
def outputFiles (st : ConvState) : List OutFile :=
  (sortBuckets st.records).map
      (fun b => { path := b.1 ++ ".csv", fields := record_fields,
                  rows := b.2.map Row.toCells })
    ++ (if st.correlations.isEmpty then []
        else [{ path := "blood_pressure.csv", fields := bp_fields,
                rows := (st.correlations.map mkBpRow).map BPRow.toCells }])
    ++ (if st.workouts.isEmpty then []
        else [{ path := "workouts.csv", fields := workout_fields,
                rows := st.workouts.map WorkoutRow.toCells }])
    ++ (if st.activity_summaries.isEmpty then []
        else [{ path := "activity_summary.csv", fields := summary_fields,
                rows := st.activity_summaries.map SummaryRow.toCells }])
    ++ (match st.profile with
        | some p => [{ path := "profile.csv", fields := profile_fields,
                       rows := [p.toCells] }]
        | none => [])

/-- The invariant of the Correlation-tracking state pair: the flag of
`convert.py` line 130 is set exactly when the reference of line 131 is
non-null. -/
def classInv (st : ConvState) : Prop :=
  st.in_correlation = st.current_correlation.isSome

/-- Opening element for a Correlation used in concrete instantiations. -/
def wCorrElem : Elem :=
  ⟨"Correlation", [("type", "HKCorrelationTypeIdentifierBloodPressure"),
                   ("sourceName", "Health"),
                   ("startDate", "2025-11-28 13:16:43 -0500"),
                   ("endDate", "2025-11-28 13:16:43 -0500")]⟩

/-- A systolic child record element used in concrete instantiations. -/
def wSysElem : Elem :=
  ⟨"Record", [("type", "HKQuantityTypeIdentifierBloodPressureSystolic"),
              ("value", "120"), ("unit", "mmHg")]⟩

/-- A diastolic child record element used in concrete instantiations. -/
def wDiaElem : Elem :=
  ⟨"Record", [("type", "HKQuantityTypeIdentifierBloodPressureDiastolic"),
              ("value", "80"), ("unit", "mmHg")]⟩

/-- A profile element used in concrete instantiations. -/
def wMeElem1 : Elem :=
  ⟨"Me", [("HKCharacteristicTypeIdentifierDateOfBirth", "1980-01-01"),
          ("HKCharacteristicTypeIdentifierBiologicalSex", "HKBiologicalSexMale"),
          ("HKCharacteristicTypeIdentifierBloodType", "HKBloodTypeAPositive"),
          ("HKCharacteristicTypeIdentifierFitzpatrickSkinType", "HKFitzpatrickSkinTypeII")]⟩

/-- A second profile element with different field values. -/
def wMeElem2 : Elem :=
  ⟨"Me", [("HKCharacteristicTypeIdentifierDateOfBirth", "1990-02-02"),
          ("HKCharacteristicTypeIdentifierBiologicalSex", "HKBiologicalSexFemale"),
          ("HKCharacteristicTypeIdentifierBloodType", "HKBloodTypeNotSet"),
          ("HKCharacteristicTypeIdentifierFitzpatrickSkinType", "HKFitzpatrickSkinTypeNotSet")]⟩

/-- Event list with one Correlation open and both pressure children, for
the blood-pressure witnesses. -/
def wBpEvs : List XMLEvent :=
  [XMLEvent.startEv wCorrElem, XMLEvent.endEv wSysElem,
   XMLEvent.endEv wDiaElem, XMLEvent.endEv wCorrElem]

/-- A record element whose type contains both component substrings, for
the blood-pressure counterexample. -/
def cBothElem : Elem :=
  ⟨"Record", [("type", "SystolicDiastolic"), ("value", "99"), ("unit", "u")]⟩

/-- Event list producing one Correlation with a single child whose type
contains both "Systolic" and "Diastolic". -/
def cBothEvs : List XMLEvent :=
  [XMLEvent.startEv wCorrElem, XMLEvent.endEv cBothElem, XMLEvent.endEv wCorrElem]

/-- Appending one child record to a Correlation accumulator. -/
def corrAppend (c : Corr) (r : ChildRec) : Corr :=
  { c with records := c.records ++ [r] }

/-- Boolean form of "the child type contains the systolic marker". -/
def sysB (r : ChildRec) : Bool :=
  containsSub "Systolic".toList r.type.toList

/-- Boolean form of "the child type contains the diastolic marker but
not the systolic one" — the only children the `elif` of `convert.py`
line 253 lets set the diastolic field. -/
def diaOnlyB (r : ChildRec) : Bool :=
  containsSub "Diastolic".toList r.type.toList && !(sysB r)

/-- Event list opening and closing a Correlation with no children. -/
def wEmptyCorrEvs : List XMLEvent :=
  [XMLEvent.startEv wCorrElem, XMLEvent.endEv wCorrElem]

/-- The empty Correlation produced by `wEmptyCorrEvs`. -/
def wEmptyCorr : Corr := corrOfElem wCorrElem

end Convert


namespace Convert

/-- Any property of the scan state that holds initially and is preserved
by every step holds after every run. -/
theorem run_pres (P : ConvState → Prop) (h0 : P initState)
    (hstep : ∀ st ev, P st → P (step st ev)) : ∀ evs, P (run evs) := by
  have key : ∀ (l : List XMLEvent) (st : ConvState), P st → P (List.foldl step st l) := by
    intro l
    induction l with
    | nil => intro st h; simpa using h
    | cons ev rest ih => intro st h; exact ih _ (hstep st ev h)
  intro evs
  exact key evs initState h0

/-- Every single event preserves the flag/reference invariant. -/
theorem step_classInv (st : ConvState) (ev : XMLEvent) (h : classInv st) :
    classInv (step st ev) := by
  simp only [classInv] at h
  cases ev with
  | startEv e =>
      simp only [step]
      split
      · simp [classInv]
      · exact h
  | endEv e =>
      simp only [step]
      repeat' split
      all_goals simp_all [classInv]

/-- The flag/reference invariant holds after every run. -/
theorem classInv_run (evs : List XMLEvent) : classInv (run evs) :=
  run_pres classInv rfl step_classInv evs

/-- Only the close of a `Me` element writes the profile. -/
theorem step_profile (st : ConvState) (ev : XMLEvent)
    (hnm : ∀ e, ev = XMLEvent.endEv e → e.tag ≠ "Me") :
    (step st ev).profile = st.profile := by
  cases ev with
  | startEv e =>
      simp only [step]
      split <;> rfl
  | endEv e =>
      have hne : ¬((e.tag == "Me") = true) := by
        simpa using hnm e rfl
      simp only [step]
      repeat' split
      all_goals simp_all

/-- The profile is unchanged across a run segment that closes no `Me`
element. -/
theorem foldl_profile (l : List XMLEvent) (st : ConvState)
    (hl : ∀ e, XMLEvent.endEv e ∈ l → e.tag ≠ "Me") :
    (List.foldl step st l).profile = st.profile := by
  induction l generalizing st with
  | nil => rfl
  | cons ev rest ih =>
      rw [List.foldl_cons]
      rw [ih _ (fun e he => hl e (List.mem_cons_of_mem _ he))]
      exact step_profile st ev (fun e hev => hl e (by simp [hev]))

/-- Appending to a bucket keeps every bucket non-empty. -/
theorem appendBucket_ne (l : List (String × List Row)) (name : String) (row : Row)
    (h : ∀ p ∈ l, p.2 ≠ []) : ∀ p ∈ appendBucket l name row, p.2 ≠ [] := by
  induction l with
  | nil =>
      intro p hp
      simp only [appendBucket, List.mem_singleton] at hp
      subst hp
      simp
  | cons q rest ih =>
      intro p hp
      simp only [appendBucket] at hp
      split at hp
      · rcases List.mem_cons.mp hp with h1 | h1
        · subst h1; simp
        · exact h p (List.mem_cons_of_mem _ h1)
      · rcases List.mem_cons.mp hp with h1 | h1
        · subst h1; exact h q (List.mem_cons_self _ _)
        · exact ih (fun r hr => h r (List.mem_cons_of_mem _ hr)) p h1

/-- Every event preserves non-emptiness of all record buckets. -/
theorem step_bucketsNE (st : ConvState) (ev : XMLEvent)
    (h : ∀ p ∈ st.records, p.2 ≠ []) :
    ∀ p ∈ (step st ev).records, p.2 ≠ [] := by
  cases ev with
  | startEv e =>
      simp only [step]
      split
      · exact h
      · exact h
  | endEv e =>
      simp only [step]
      repeat' split
      all_goals first
        | exact h
        | exact appendBucket_ne st.records _ _ h

/-- After every run, every record bucket holds at least one row. -/
theorem bucketsNE_run (evs : List XMLEvent) :
    ∀ p ∈ (run evs).records, p.2 ≠ [] := by
  exact run_pres (fun st => ∀ p ∈ st.records, p.2 ≠ []) (by simp [initState])
    step_bucketsNE evs

/-- When the trailing-offset pattern is absent, the regex substitution
leaves the character list unchanged. -/
theorem stripOffset_id (l : List Char) (h : hasOffsetTail l = false) :
    stripOffset l = l := by
  simp [stripOffset, h]

/-- When the trailing-offset pattern is absent, `clean_date` is the
identity. -/
theorem clean_date_id (s : String) (h : hasOffsetTail s.toList = false) :
    clean_date s = s := by
  show (if s.toList.isEmpty then "" else String.mk (stripOffset s.toList)) = s
  split
  next he =>
    have h0 : s.toList = [] := List.isEmpty_iff.mp he
    calc ("" : String) = String.mk [] := rfl
    _ = String.mk s.toList := by rw [h0]
    _ = s := rfl
  next he =>
    rw [stripOffset_id _ h]
    rfl

/-- C2 (amended): `clean_date` returns unchanged every string that does
not end in the offset pattern (a non-empty run of whitespace, a sign,
and exactly four digits); it is idempotent on every string that does not
end in two consecutive such offset suffixes; and it maps
"2025-11-28 13:16:43 -0500" to "2025-11-28 13:16:43".  The unrestricted
idempotence stated by the claim fails: see the counterexample. -/
theorem c2_clean_date_idempotent :
    (∀ s : String, hasOffsetTail s.toList = false → clean_date s = s) ∧
    (∀ s : String,
        ¬(hasOffsetTail s.toList = true ∧ hasOffsetTail (clean_date s).toList = true) →
        clean_date (clean_date s) = clean_date s) ∧
    clean_date "2025-11-28 13:16:43 -0500" = "2025-11-28 13:16:43" := by
  refine ⟨clean_date_id, ?_, by decide⟩
  intro s h
  by_cases h1 : hasOffsetTail s.toList = true
  · by_cases h2 : hasOffsetTail (clean_date s).toList = true
    · exact absurd ⟨h1, h2⟩ h
    · exact clean_date_id _ (by simpa using h2)
  · have hid := clean_date_id s (by simpa using h1)
    simp only [hid]

/-- Witness: `clean_date` leaves "abc" unchanged and is idempotent on the
documented example date. -/
theorem c2_witness :
    clean_date "abc" = "abc" ∧
    clean_date (clean_date "2025-11-28 13:16:43 -0500") =
      clean_date "2025-11-28 13:16:43 -0500" := by
  constructor
  · exact c2_clean_date_idempotent.1 "abc" (by decide)
  · exact c2_clean_date_idempotent.2.1 "2025-11-28 13:16:43 -0500" (by decide)

/-- Counterexample to C2 as stated: on "a -1111 -2222" one application
removes only the last offset suffix, so a second application removes
another one and idempotence fails. -/
theorem c2_counterexample :
    clean_date (clean_date "a -1111 -2222") ≠ clean_date "a -1111 -2222" := by
  decide

/-- The head survives underscore-run collapsing. -/
theorem collapseUnd_cons (xs : List Char) (x : Char) :
    ∃ t, collapseUnd (x :: xs) = x :: t := by
  induction xs generalizing x with
  | nil => exact ⟨[], rfl⟩
  | cons b rest ih =>
      by_cases hx : (x == '_' && b == '_') = true
      · rcases ih b with ⟨t, ht⟩
        have hx1 : x = '_' := by
          have := (Bool.and_eq_true _ _).mp hx
          exact eq_of_beq this.1
        have hb1 : b = '_' := by
          have := (Bool.and_eq_true _ _).mp hx
          exact eq_of_beq this.2
        refine ⟨t, ?_⟩
        rw [collapseUnd, if_pos hx, ht, hx1, hb1]
      · exact ⟨collapseUnd (b :: rest), by rw [collapseUnd, if_neg hx]⟩

/-- Stripping leading underscores before collapsing underscore runs
gives the same result as collapsing first and stripping afterwards. -/
theorem collapse_lstrip_comm (l : List Char) :
    collapseUnd (lstripUnd l) = lstripUnd (collapseUnd l) := by
  induction l with
  | nil => rfl
  | cons a tl ih =>
      cases tl with
      | nil =>
          by_cases ha : a = '_'
          · subst ha; rfl
          · have ha2 : (a == '_') = false := beq_false_of_ne ha
            simp [lstripUnd, collapseUnd, ha2]
      | cons b rest =>
          by_cases ha : a = '_'
          · by_cases hb : b = '_'
            · subst ha
              subst hb
              have hcond : (('_' : Char) == '_' && ('_' : Char) == '_') = true := by decide
              rw [collapseUnd, if_pos hcond]
              have hl : lstripUnd ('_' :: '_' :: rest) = lstripUnd ('_' :: rest) := by
                simp [lstripUnd]
              rw [hl]
              exact ih
            · subst ha
              have hb2 : (b == '_') = false := beq_false_of_ne hb
              rw [collapseUnd, if_neg (by simp [hb2])]
              have hl : lstripUnd ('_' :: b :: rest) = b :: rest := by
                simp [lstripUnd, List.dropWhile, hb2]
              rw [hl]
              have hr : lstripUnd ('_' :: collapseUnd (b :: rest)) =
                  lstripUnd (collapseUnd (b :: rest)) := by
                simp [lstripUnd]
              rw [hr]
              rcases collapseUnd_cons rest b with ⟨t, ht⟩
              rw [ht]
              simp [lstripUnd, List.dropWhile, hb2, collapseUnd]
          · have ha2 : (a == '_') = false := beq_false_of_ne ha
            have hl : lstripUnd (a :: b :: rest) = a :: b :: rest := by
              simp [lstripUnd, List.dropWhile, ha2]
            rw [hl]
            rcases collapseUnd_cons (b :: rest) a with ⟨t, ht⟩
            rw [ht]
            simp [lstripUnd, List.dropWhile, ha2]

/-- C4: for identifiers outside the exact-match table, `friendly_name`
strips at most one known marker (first match wins), inserts an
underscore before each uppercase letter and lowercases, then collapses
underscore runs and removes leading underscores — and the order of the
last two steps is immaterial, so the code (which strips leading
underscores before collapsing) meets the specification order; table
identifiers return their table entry. -/
theorem c4_friendly_name_rule :
    (∀ s v, TYPE_NAMES.lookup s = some v → friendly_name s = v) ∧
    (∀ s, TYPE_NAMES.lookup s = none → friendly_name s = claimFallback s) := by
  constructor
  · intro s v h
    simp [friendly_name, h]
  · intro s h
    simp only [friendly_name, claimFallback, h]
    rw [collapse_lstrip_comm]

/-- Witness: a table identifier returns its entry, and an unknown
identifier follows the specification-order fallback pipeline. -/
theorem c4_witness :
    friendly_name "HKQuantityTypeIdentifierStepCount" = "steps" ∧
    friendly_name "HKCategoryTypeIdentifierHandwashingEvent" =
      claimFallback "HKCategoryTypeIdentifierHandwashingEvent" := by
  constructor
  · exact c4_friendly_name_rule.1 _ _ (by decide)
  · exact c4_friendly_name_rule.2 _ (by decide)

/-- C6: every identifier normalizer returns the empty string on empty
input, unknown identifiers fall through to the generic naming rule
rather than failing, and the documented heart-rate identifier maps to
"heart_rate".  Totality and determinism hold by construction: each
normalizer is a total Lean function. -/
theorem c6_normalizers_total :
    friendly_name "" = "" ∧ clean_workout_type "" = "" ∧ clean_bio_sex "" = "" ∧
    clean_blood_type "" = "" ∧ clean_skin_type "" = "" ∧
    (∀ s, TYPE_NAMES.lookup s = none →
        friendly_name s =
          String.mk (collapseUnd (lstripUnd (camelUnd (stripHKPre hkMarks s).toList)))) ∧
    friendly_name "HKQuantityTypeIdentifierHeartRate" = "heart_rate" := by
  refine ⟨by decide, by decide, by decide, by decide, by decide, ?_, by decide⟩
  intro s h
  simp [friendly_name, h]

/-- A list is a Boolean prefix of itself followed by anything. -/
theorem listStarts_app (l r : List Char) : listStarts l (l ++ r) = true := by
  induction l with
  | nil => rfl
  | cons a as ih => simp [listStarts, ih]

/-- Dropping exactly the matched characters resumes scanning after
them. -/
theorem removeAllGo_skip (old : List Char) (xs ys : List Char) :
    removeAllGo old (xs ++ ys) xs.length = removeAllGo old ys 0 := by
  induction xs with
  | nil => rfl
  | cons x xs ih => simpa [removeAllGo] using ih

/-- Replace-all with a needle that occurs nowhere is the identity. -/
theorem removeAllGo_id (old : List Char) (l : List Char)
    (h : containsSub old l = false) : removeAllGo old l 0 = l := by
  induction l with
  | nil => rfl
  | cons c rest ih =>
      rw [containsSub] at h
      have h1 : listStarts old (c :: rest) = false := by
        by_cases hh : listStarts old (c :: rest) = true
        · rw [hh] at h; simp at h
        · simpa using hh
      have h2 : containsSub old rest = false := by
        rw [h1] at h; simpa using h
      rw [removeAllGo, if_neg (by simp [h1]), ih h2]

/-- Replace-all consumes a leading occurrence of the needle. -/
theorem removeAllGo_front (old r : List Char) (hne : old ≠ []) :
    removeAllGo old (old ++ r) 0 = removeAllGo old r 0 := by
  cases old with
  | nil => exact absurd rfl hne
  | cons o os =>
      have h1 : listStarts (o :: os) ((o :: os) ++ r) = true := listStarts_app _ _
      rw [List.cons_append, removeAllGo, if_pos (by simpa using h1)]
      have h2 : (o :: os).length - 1 = os.length := by simp
      rw [h2]
      exact removeAllGo_skip _ os r

/-- C5 (amended): the three enum normalizers remove every occurrence of
their marker substring (HKBiologicalSex, HKBloodType,
HKFitzpatrickSkinType), not only a leading prefix.  Consequently: an
input starting with the marker whose remainder does not contain the
marker again has the prefix stripped (blood/skin then insert a space
between each lowercase letter immediately followed by an uppercase
letter), and an input not containing the marker anywhere is left as-is
except for that space insertion.  The claim as stated (prefix-only
stripping) fails: see the counterexample. -/
theorem c5_enum_normalizers :
    (∀ s : String, containsSub bioSexMark.toList s.toList = false → clean_bio_sex s = s) ∧
    (∀ r : String, containsSub bioSexMark.toList r.toList = false →
        clean_bio_sex (bioSexMark ++ r) = r) ∧
    (∀ s : String, containsSub bloodMark.toList s.toList = false →
        clean_blood_type s = String.mk (insertSpaces s.toList)) ∧
    (∀ r : String, containsSub bloodMark.toList r.toList = false →
        clean_blood_type (bloodMark ++ r) = String.mk (insertSpaces r.toList)) ∧
    (∀ s : String, containsSub skinMark.toList s.toList = false →
        clean_skin_type s = String.mk (insertSpaces s.toList)) ∧
    (∀ r : String, containsSub skinMark.toList r.toList = false →
        clean_skin_type (skinMark ++ r) = String.mk (insertSpaces r.toList)) := by
  have happ : ∀ (a b : String), (a ++ b).toList = a.toList ++ b.toList := by
    intro a b
    exact String.data_append a b
  have hch : ∀ (mark s : String), mark.toList ≠ [] →
      containsSub mark.toList s.toList = false →
      (if (mark ++ s).toList.isEmpty then "" else pyRemoveAll mark (mark ++ s)) =
        String.mk s.toList := by
    intro mark s hne hsub
    rw [happ]
    have hne2 : (mark.toList ++ s.toList).isEmpty = false := by
      cases hm : mark.toList with
      | nil => exact absurd hm hne
      | cons a as => simp
    rw [hne2]
    simp only [Bool.false_eq_true, if_false]
    show String.mk (removeAllGo mark.toList (mark ++ s).toList 0) = String.mk s.toList
    rw [happ, removeAllGo_front _ _ hne, removeAllGo_id _ _ hsub]
  have hid : ∀ (mark s : String), containsSub mark.toList s.toList = false →
      (if s.toList.isEmpty then "" else pyRemoveAll mark s) = String.mk s.toList := by
    intro mark s hsub
    by_cases hs : s.toList.isEmpty = true
    · have h0 : s.toList = [] := List.isEmpty_iff.mp hs
      rw [if_pos hs, h0]
    · rw [if_neg hs]
      show String.mk (removeAllGo mark.toList s.toList 0) = String.mk s.toList
      rw [removeAllGo_id _ _ hsub]
  refine ⟨?_, ?_, ?_, ?_, ?_, ?_⟩
  · intro s h
    show (if s.toList.isEmpty then "" else pyRemoveAll bioSexMark s) = s
    rw [hid bioSexMark s h]
    rfl
  · intro r h
    show (if (bioSexMark ++ r).toList.isEmpty then "" else pyRemoveAll bioSexMark (bioSexMark ++ r)) = r
    rw [hch bioSexMark r (by decide) h]
    rfl
  · intro s h
    show String.mk (insertSpaces (if s.toList.isEmpty then "" else pyRemoveAll bloodMark s).toList) =
      String.mk (insertSpaces s.toList)
    rw [hid bloodMark s h]
    rfl
  · intro r h
    show String.mk (insertSpaces
        (if (bloodMark ++ r).toList.isEmpty then "" else pyRemoveAll bloodMark (bloodMark ++ r)).toList) =
      String.mk (insertSpaces r.toList)
    rw [hch bloodMark r (by decide) h]
    rfl
  · intro s h
    show String.mk (insertSpaces (if s.toList.isEmpty then "" else pyRemoveAll skinMark s).toList) =
      String.mk (insertSpaces s.toList)
    rw [hid skinMark s h]
    rfl
  · intro r h
    show String.mk (insertSpaces
        (if (skinMark ++ r).toList.isEmpty then "" else pyRemoveAll skinMark (skinMark ++ r)).toList) =
      String.mk (insertSpaces r.toList)
    rw [hch skinMark r (by decide) h]
    rfl

/-- Witness: prefix-bearing enum codes are stripped and space-split as
documented. -/
theorem c5_witness :
    clean_bio_sex (bioSexMark ++ "Male") = "Male" ∧
    clean_blood_type (bloodMark ++ "NotSet") = String.mk (insertSpaces "NotSet".toList) ∧
    clean_skin_type "unknown" = String.mk (insertSpaces "unknown".toList) := by
  refine ⟨c5_enum_normalizers.2.1 "Male" (by decide),
          c5_enum_normalizers.2.2.2.1 "NotSet" (by decide),
          c5_enum_normalizers.2.2.2.2.1 "unknown" (by decide)⟩

/-- Counterexample to C5 as stated: the biological-sex normalizer
rewrites an input that does not start with the marker, because Python
`str.replace` removes interior occurrences too. -/
theorem c5_counterexample :
    listStarts bioSexMark.toList "XHKBiologicalSexY".toList = false ∧
    clean_bio_sex "XHKBiologicalSexY" = "XY" ∧
    clean_bio_sex "XHKBiologicalSexY" ≠ "XHKBiologicalSexY" := by
  decide

/-- Witness: an identifier outside the table falls through the generic
rule. -/
theorem c6_witness :
    TYPE_NAMES.lookup "SomeVendorThing" = none ∧
    friendly_name "SomeVendorThing" =
      String.mk (collapseUnd (lstripUnd (camelUnd (stripHKPre hkMarks "SomeVendorThing").toList))) := by
  exact ⟨by decide, c6_normalizers_total.2.2.2.2.2.1 "SomeVendorThing" (by decide)⟩

/-- C1: in every reachable state, closing a `Record` whose type is one of
the two blood-pressure component types never touches a category bucket
(nor any other output bucket); with a Correlation open it is appended to
that Correlation's child sequence, and with no Correlation open the
whole state is unchanged — the record appears nowhere. -/
theorem c1_bp_record_routing (evs : List XMLEvent) (e : Elem)
    (htag : e.tag = "Record")
    (hbp : BP_TYPES.contains (e.get "type") = true) :
    (step (run evs) (XMLEvent.endEv e)).records = (run evs).records ∧
    (step (run evs) (XMLEvent.endEv e)).correlations = (run evs).correlations ∧
    (step (run evs) (XMLEvent.endEv e)).workouts = (run evs).workouts ∧
    (step (run evs) (XMLEvent.endEv e)).activity_summaries = (run evs).activity_summaries ∧
    (step (run evs) (XMLEvent.endEv e)).profile = (run evs).profile ∧
    (∀ c, (run evs).current_correlation = some c →
        (step (run evs) (XMLEvent.endEv e)).current_correlation =
          some (corrAppend c (childOfElem e))) ∧
    ((run evs).current_correlation = none → step (run evs) (XMLEvent.endEv e) = run evs) := by
  have hinv := classInv_run evs
  simp only [classInv] at hinv
  cases hcc : (run evs).current_correlation with
  | some c =>
      have hflag : (run evs).in_correlation = true := by rw [hinv, hcc]; rfl
      have hstep : step (run evs) (XMLEvent.endEv e) =
          { run evs with current_correlation := some (corrAppend c (childOfElem e)) } := by
        simp [step, htag, hflag, hcc, corrAppend]
      rw [hstep]
      refine ⟨rfl, rfl, rfl, rfl, rfl, ?_, ?_⟩
      · intro c2 hc2
        cases hc2
        rfl
      · intro hnone
        simp at hnone
  | none =>
      have hflag : (run evs).in_correlation = false := by rw [hinv, hcc]; rfl
      have hstep : step (run evs) (XMLEvent.endEv e) = run evs := by
        have hmem : (e.get "type") ∈ BP_TYPES := by simpa using hbp
        simp [step, htag, hflag, hcc, hmem]
      rw [hstep]
      refine ⟨rfl, rfl, rfl, rfl, rfl, ?_, fun _ => rfl⟩
      intro c2 hc2
      simp at hc2

/-- Witness: with a Correlation open, a closing systolic record lands in
the open Correlation's child list and the buckets stay untouched. -/
theorem c1_witness :
    (step (run [XMLEvent.startEv wCorrElem]) (XMLEvent.endEv wSysElem)).records =
      (run [XMLEvent.startEv wCorrElem]).records ∧
    (step (run [XMLEvent.startEv wCorrElem]) (XMLEvent.endEv wSysElem)).current_correlation =
      some (corrAppend (corrOfElem wCorrElem) (childOfElem wSysElem)) := by
  have h := c1_bp_record_routing [XMLEvent.startEv wCorrElem] wSysElem rfl (by decide)
  refine ⟨h.1, ?_⟩
  have h2 := h.2.2.2.2.2.1 (corrOfElem wCorrElem) (by decide)
  simpa using h2

/-- C7: a Correlation close event arriving in a reachable state with no
open Correlation leaves the entire state — correlation list, flag and
reference included — exactly as it was. -/
theorem c7_close_noop (evs : List XMLEvent) (e : Elem)
    (htag : e.tag = "Correlation")
    (h : (run evs).current_correlation = none) :
    step (run evs) (XMLEvent.endEv e) = run evs := by
  have hinv := classInv_run evs
  simp only [classInv] at hinv
  have hflag : (run evs).in_correlation = false := by rw [hinv, h]; rfl
  have hshape : step (run evs) (XMLEvent.endEv e) =
      { run evs with in_correlation := false, current_correlation := none } := by
    simp [step, htag, h]
  rw [hshape, ← hflag, ← h]

/-- Witness: closing a Correlation in the initial state is a no-op. -/
theorem c7_witness :
    step (run []) (XMLEvent.endEv ⟨"Correlation", []⟩) = run [] :=
  c7_close_noop [] ⟨"Correlation", []⟩ rfl rfl

/-- C9: the profile is single-valued with last-wins overwrite semantics:
when a `Me` element closes and no later `Me` element closes after it,
the final profile is built from that element's four attributes, with the
biological-sex, blood-type and skin-type normalizers applied and the
date of birth passed through. -/
theorem c9_profile_last_wins (evs1 evs2 : List XMLEvent) (e : Elem)
    (htag : e.tag = "Me")
    (_hprev : ∃ e1, XMLEvent.endEv e1 ∈ evs1 ∧ e1.tag = "Me")
    (hafter : ∀ e2, XMLEvent.endEv e2 ∈ evs2 → e2.tag ≠ "Me") :
    (run (evs1 ++ XMLEvent.endEv e :: evs2)).profile = some (profileOfElem e) := by
  unfold run
  rw [List.foldl_append, List.foldl_cons]
  rw [foldl_profile evs2 _ hafter]
  simp [step, htag]

/-- Witness: with two profile elements, the second one's normalized
fields win. -/
theorem c9_witness :
    (run [XMLEvent.endEv wMeElem1, XMLEvent.endEv wMeElem2]).profile =
      some (profileOfElem wMeElem2) := by
  have h := c9_profile_last_wins [XMLEvent.endEv wMeElem1] [] wMeElem2 rfl
    ⟨wMeElem1, by simp, rfl⟩ (by intro e2 h2; simp at h2)
  simpa using h

/-- C10: the classifier state invariant — the inside-grouping flag is
true exactly when the current-correlation reference is non-null — holds
initially, is preserved by every event, and so holds after every run;
a Correlation open sets both, a Correlation close clears both, and no
other event changes the flag or the nullity of the reference. -/
theorem c10_class_invariant :
    classInv initState ∧
    (∀ st ev, classInv st → classInv (step st ev)) ∧
    (∀ evs, classInv (run evs)) ∧
    (∀ st (e : Elem), e.tag = "Correlation" →
        (step st (XMLEvent.startEv e)).in_correlation = true ∧
        (step st (XMLEvent.startEv e)).current_correlation = some (corrOfElem e)) ∧
    (∀ st (e : Elem), e.tag = "Correlation" →
        (step st (XMLEvent.endEv e)).in_correlation = false ∧
        (step st (XMLEvent.endEv e)).current_correlation = none) ∧
    (∀ st (e : Elem), e.tag ≠ "Correlation" → step st (XMLEvent.startEv e) = st) ∧
    (∀ st (e : Elem), e.tag ≠ "Correlation" →
        (step st (XMLEvent.endEv e)).in_correlation = st.in_correlation ∧
        (step st (XMLEvent.endEv e)).current_correlation.isSome =
          st.current_correlation.isSome) := by
  refine ⟨rfl, step_classInv, classInv_run, ?_, ?_, ?_, ?_⟩
  · intro st e htag
    constructor <;> simp [step, htag]
  · intro st e htag
    constructor <;> simp [step, htag]
  · intro st e htag
    simp [step, htag]
  · intro st e htag
    constructor <;>
      · simp only [step]
        repeat' split
        all_goals simp_all

/-- Witness: the invariant is preserved when a Correlation opens in the
initial state. -/
theorem c10_witness :
    classInv (step initState (XMLEvent.startEv wCorrElem)) :=
  c10_class_invariant.2.1 initState (XMLEvent.startEv wCorrElem) rfl

/-- With no systolic-typed child, the scan keeps the systolic and unit
accumulators. -/
theorem bpScan_sys_none (recs : List ChildRec) :
    ∀ s d u, (∀ r ∈ recs, sysB r = false) →
      (bpScan recs (s, d, u)).1 = s ∧ (bpScan recs (s, d, u)).2.2 = u := by
  induction recs with
  | nil => intro s d u _; exact ⟨rfl, rfl⟩
  | cons r rest ih =>
      intro s d u h
      have hr := h r (List.mem_cons_self _ _)
      unfold sysB at hr
      have hrest : ∀ x ∈ rest, sysB x = false := fun x hx => h x (List.mem_cons_of_mem _ hx)
      rw [bpScan, if_neg (by simp only [hr]; simp)]
      by_cases hd : containsSub "Diastolic".toList r.type.toList = true
      · rw [if_pos hd]
        exact ih s r.value u hrest
      · rw [if_neg hd]
        exact ih s d u hrest

/-- With a systolic-typed child present, the scan returns the value and
unit of such a child in the systolic and unit components. -/
theorem bpScan_sys_ex (recs : List ChildRec) :
    ∀ s d u, (∃ r ∈ recs, sysB r = true) →
      ∃ r ∈ recs, sysB r = true ∧ (bpScan recs (s, d, u)).1 = r.value ∧
        (bpScan recs (s, d, u)).2.2 = r.unit := by
  induction recs with
  | nil =>
      intro s d u h
      rcases h with ⟨r, hr, _⟩
      simp at hr
  | cons r rest ih =>
      intro s d u hex
      by_cases hrest : ∃ x ∈ rest, sysB x = true
      · by_cases hr : sysB r = true
        · have hr2 := hr
          unfold sysB at hr2
          rw [bpScan, if_pos hr2]
          rcases ih r.value d r.unit hrest with ⟨x, hx, hsx, h1, h2⟩
          exact ⟨x, List.mem_cons_of_mem _ hx, hsx, h1, h2⟩
        · have hr2 : sysB r = false := by simpa using hr
          unfold sysB at hr2
          rw [bpScan, if_neg (by simp only [hr2]; simp)]
          by_cases hd : containsSub "Diastolic".toList r.type.toList = true
          · rw [if_pos hd]
            rcases ih s r.value u hrest with ⟨x, hx, hsx, h1, h2⟩
            exact ⟨x, List.mem_cons_of_mem _ hx, hsx, h1, h2⟩
          · rw [if_neg hd]
            rcases ih s d u hrest with ⟨x, hx, hsx, h1, h2⟩
            exact ⟨x, List.mem_cons_of_mem _ hx, hsx, h1, h2⟩
      · have hr : sysB r = true := by
          rcases hex with ⟨x, hx, hsx⟩
          rcases List.mem_cons.mp hx with h1 | h1
          · rw [← h1]; exact hsx
          · exact absurd ⟨x, h1, hsx⟩ hrest
        have hnone : ∀ x ∈ rest, sysB x = false := by
          intro x hx
          by_cases hb : sysB x = true
          · exact absurd ⟨x, hx, hb⟩ hrest
          · simpa using hb
        have hr2 := hr
        unfold sysB at hr2
        rw [bpScan, if_pos hr2]
        rcases bpScan_sys_none rest r.value d r.unit hnone with ⟨h1, h2⟩
        exact ⟨r, List.mem_cons_self _ _, hr, h1, h2⟩

/-- With no child that is diastolic-typed-but-not-systolic-typed, the
scan keeps the diastolic accumulator. -/
theorem bpScan_dia_none (recs : List ChildRec) :
    ∀ s d u, (∀ r ∈ recs, diaOnlyB r = false) →
      (bpScan recs (s, d, u)).2.1 = d := by
  induction recs with
  | nil => intro s d u _; rfl
  | cons r rest ih =>
      intro s d u h
      have hrest : ∀ x ∈ rest, diaOnlyB x = false := fun x hx => h x (List.mem_cons_of_mem _ hx)
      by_cases hs : containsSub "Systolic".toList r.type.toList = true
      · rw [bpScan, if_pos hs]
        exact ih r.value d r.unit hrest
      · have hs2 : containsSub "Systolic".toList r.type.toList = false := by
          have h0 : sysB r = false := by unfold sysB; simpa using hs
          unfold sysB at h0
          exact h0
        have hd : containsSub "Diastolic".toList r.type.toList = false := by
          have h0 := h r (List.mem_cons_self _ _)
          unfold diaOnlyB sysB at h0
          rw [hs2] at h0
          simpa using h0
        rw [bpScan, if_neg hs, if_neg (by simp only [hd]; simp)]
        exact ih s d u hrest

/-- With a diastolic-typed-but-not-systolic-typed child present, the
scan returns the value of such a child in the diastolic component. -/
theorem bpScan_dia_ex (recs : List ChildRec) :
    ∀ s d u, (∃ r ∈ recs, diaOnlyB r = true) →
      ∃ r ∈ recs, diaOnlyB r = true ∧ (bpScan recs (s, d, u)).2.1 = r.value := by
  induction recs with
  | nil =>
      intro s d u h
      rcases h with ⟨r, hr, _⟩
      simp at hr
  | cons r rest ih =>
      intro s d u hex
      by_cases hrest : ∃ x ∈ rest, diaOnlyB x = true
      · by_cases hs : containsSub "Systolic".toList r.type.toList = true
        · rw [bpScan, if_pos hs]
          rcases ih r.value d r.unit hrest with ⟨x, hx, hdx, h1⟩
          exact ⟨x, List.mem_cons_of_mem _ hx, hdx, h1⟩
        · rw [bpScan, if_neg hs]
          by_cases hd : containsSub "Diastolic".toList r.type.toList = true
          · rw [if_pos hd]
            rcases ih s r.value u hrest with ⟨x, hx, hdx, h1⟩
            exact ⟨x, List.mem_cons_of_mem _ hx, hdx, h1⟩
          · rw [if_neg hd]
            rcases ih s d u hrest with ⟨x, hx, hdx, h1⟩
            exact ⟨x, List.mem_cons_of_mem _ hx, hdx, h1⟩
      · have hr : diaOnlyB r = true := by
          rcases hex with ⟨x, hx, hdx⟩
          rcases List.mem_cons.mp hx with h1 | h1
          · rw [← h1]; exact hdx
          · exact absurd ⟨x, h1, hdx⟩ hrest
        have hnone : ∀ x ∈ rest, diaOnlyB x = false := by
          intro x hx
          by_cases hb : diaOnlyB x = true
          · exact absurd ⟨x, hx, hb⟩ hrest
          · simpa using hb
        have hr0 := hr
        unfold diaOnlyB sysB at hr0
        rcases Bool.and_eq_true _ _ |>.mp hr0 with ⟨hd, hs0⟩
        have hs : containsSub "Systolic".toList r.type.toList = false := by
          cases hval : containsSub "Systolic".toList r.type.toList with
          | false => rfl
          | true => rw [hval] at hs0; simp at hs0
        rw [bpScan, if_neg (by simp only [hs]; simp), if_pos hd]
        exact ⟨r, List.mem_cons_self _ _, hr, bpScan_dia_none rest s r.value u hnone⟩

/-- The three scanned components land in the corresponding fields of the
derived blood-pressure row. -/
theorem mkBpRow_fields (c : Corr) :
    (mkBpRow c).systolic = (bpScan c.records ("", "", "")).1 ∧
    (mkBpRow c).diastolic = (bpScan c.records ("", "", "")).2.1 ∧
    (mkBpRow c).unit = (bpScan c.records ("", "", "")).2.2 := by
  unfold mkBpRow
  rcases h : bpScan c.records ("", "", "") with ⟨s, d, u⟩
  simp [h]

/-- C3 (amended): the blood-pressure file holds exactly one row per
finalized Correlation, in finalization order; in each row the systolic
field and unit field are the value and unit of a child whose type
contains "Systolic" (empty when there is none), and the diastolic field
is the value of a child whose type contains "Diastolic" and does not
contain "Systolic" — children are tested for "Systolic" first, so a
child matching both counts only toward the systolic field — and is
empty when no such child exists.  The claim as stated (any child
containing "Diastolic" may supply the diastolic value) fails: see the
counterexample. -/
theorem c3_bp_rows (evs : List XMLEvent) :
    ((run evs).correlations ≠ [] →
      ({ path := "blood_pressure.csv", fields := bp_fields,
         rows := ((run evs).correlations.map mkBpRow).map BPRow.toCells } : OutFile)
        ∈ outputFiles (run evs)) ∧
    (∀ c ∈ (run evs).correlations,
      ((∃ r ∈ c.records, sysB r = true) →
          ∃ r ∈ c.records, sysB r = true ∧ (mkBpRow c).systolic = r.value ∧
            (mkBpRow c).unit = r.unit) ∧
      ((∀ r ∈ c.records, sysB r = false) →
          (mkBpRow c).systolic = "" ∧ (mkBpRow c).unit = "") ∧
      ((∃ r ∈ c.records, diaOnlyB r = true) →
          ∃ r ∈ c.records, diaOnlyB r = true ∧ (mkBpRow c).diastolic = r.value) ∧
      ((∀ r ∈ c.records, diaOnlyB r = false) → (mkBpRow c).diastolic = "")) := by
  constructor
  · intro hne
    have hie : (run evs).correlations.isEmpty = false := by
      cases hc : (run evs).correlations with
      | nil => exact absurd hc hne
      | cons a as => simp
    simp only [outputFiles, hie, Bool.false_eq_true, if_false]
    apply List.mem_append_left
    apply List.mem_append_left
    apply List.mem_append_left
    apply List.mem_append_right
    exact List.mem_singleton.mpr rfl
  · intro c _
    rcases mkBpRow_fields c with ⟨h1, h2, h3⟩
    refine ⟨?_, ?_, ?_, ?_⟩
    · intro hex
      rw [h1, h3]
      exact bpScan_sys_ex c.records "" "" "" hex
    · intro hall
      rw [h1, h3]
      exact bpScan_sys_none c.records "" "" "" hall
    · intro hex
      rw [h2]
      exact bpScan_dia_ex c.records "" "" "" hex
    · intro hall
      rw [h2]
      exact bpScan_dia_none c.records "" "" "" hall

/-- Witness: the systolic/diastolic pair of the documented example
produces the blood-pressure file entry, and an empty Correlation yields
empty systolic and unit fields. -/
theorem c3_witness :
    (({ path := "blood_pressure.csv", fields := bp_fields,
        rows := ((run wBpEvs).correlations.map mkBpRow).map BPRow.toCells } : OutFile)
       ∈ outputFiles (run wBpEvs)) ∧
    (mkBpRow wEmptyCorr).systolic = "" ∧ (mkBpRow wEmptyCorr).unit = "" := by
  refine ⟨(c3_bp_rows wBpEvs).1 (by decide), ?_⟩
  exact ((c3_bp_rows wEmptyCorrEvs).2 wEmptyCorr (by decide)).2.1 (by decide)

/-- Counterexample to C3 as stated: a Correlation whose only child has
type "SystolicDiastolic" and value "99" has a child whose type contains
"Diastolic", yet the row's diastolic field is the empty string, not that
child's value. -/
theorem c3_counterexample :
    (run cBothEvs).correlations =
      [corrAppend (corrOfElem wCorrElem) (childOfElem cBothElem)] ∧
    (childOfElem cBothElem).value = "99" ∧
    containsSub "Diastolic".toList (childOfElem cBothElem).type.toList = true ∧
    (mkBpRow (corrAppend (corrOfElem wCorrElem) (childOfElem cBothElem))).diastolic = "" ∧
    (mkBpRow (corrAppend (corrOfElem wCorrElem) (childOfElem cBothElem))).diastolic ≠
      (childOfElem cBothElem).value := by
  decide

/-- A list with a false emptiness flag is not the empty list. -/
theorem ne_nil_of_isEmpty_false {α : Type} (l : List α) (h : l.isEmpty = false) :
    l ≠ [] := by
  intro h0
  rw [h0] at h
  simp at h

/-- Every file the write phase emits is one of the five kinds, each with
its fixed schema, and the non-category kinds are present only when their
bucket is non-empty. -/
theorem outputFiles_shape (st : ConvState) :
    ∀ f ∈ outputFiles st,
      f.fields = record_fields ∨
      (f.path = "blood_pressure.csv" ∧ f.fields = bp_fields ∧ st.correlations ≠ []) ∨
      (f.path = "workouts.csv" ∧ f.fields = workout_fields ∧ st.workouts ≠ []) ∨
      (f.path = "activity_summary.csv" ∧ f.fields = summary_fields ∧
        st.activity_summaries ≠ []) ∨
      (f.path = "profile.csv" ∧ f.fields = profile_fields ∧ st.profile ≠ none) := by
  intro f hf
  simp only [outputFiles] at hf
  rcases List.mem_append.mp hf with hf | hf
  rotate_left
  · -- profile chunk
    cases hp : st.profile with
    | none => rw [hp] at hf; simp at hf
    | some p =>
        rw [hp] at hf
        simp only [List.mem_singleton] at hf
        subst hf
        right; right; right; right
        exact ⟨rfl, rfl, by simp⟩
  rcases List.mem_append.mp hf with hf | hf
  rotate_left
  · -- activity-summary chunk
    cases hs : st.activity_summaries.isEmpty with
    | true => rw [hs] at hf; simp at hf
    | false =>
        rw [hs] at hf
        simp only [Bool.false_eq_true, if_false, List.mem_singleton] at hf
        subst hf
        right; right; right; left
        exact ⟨rfl, rfl, ne_nil_of_isEmpty_false _ hs⟩
  rcases List.mem_append.mp hf with hf | hf
  rotate_left
  · -- workouts chunk
    cases hw : st.workouts.isEmpty with
    | true => rw [hw] at hf; simp at hf
    | false =>
        rw [hw] at hf
        simp only [Bool.false_eq_true, if_false, List.mem_singleton] at hf
        subst hf
        right; right; left
        exact ⟨rfl, rfl, ne_nil_of_isEmpty_false _ hw⟩
  rcases List.mem_append.mp hf with hf | hf
  rotate_left
  · -- blood-pressure chunk
    cases hc : st.correlations.isEmpty with
    | true => rw [hc] at hf; simp at hf
    | false =>
        rw [hc] at hf
        simp only [Bool.false_eq_true, if_false, List.mem_singleton] at hf
        subst hf
        right; left
        exact ⟨rfl, rfl, ne_nil_of_isEmpty_false _ hc⟩
  · -- category chunk
    rcases List.mem_map.mp hf with ⟨b, _, hb⟩
    left
    rw [← hb]

/-- C8: an empty workouts bucket yields no workouts-schema file, an
empty summaries bucket no activity-summary file, an absent profile no
profile file; the derived blood-pressure file exists exactly when at
least one Correlation was finalized (whatever its component fields
hold); and every category bucket that exists holds at least one
record. -/
theorem c8_empty_buckets (evs : List XMLEvent) :
    ((run evs).workouts = [] →
        ∀ f ∈ outputFiles (run evs),
          ¬(f.path = "workouts.csv" ∧ f.fields = workout_fields)) ∧
    ((run evs).activity_summaries = [] →
        ∀ f ∈ outputFiles (run evs),
          ¬(f.path = "activity_summary.csv" ∧ f.fields = summary_fields)) ∧
    ((run evs).profile = none →
        ∀ f ∈ outputFiles (run evs),
          ¬(f.path = "profile.csv" ∧ f.fields = profile_fields)) ∧
    ((∃ f ∈ outputFiles (run evs),
        f.path = "blood_pressure.csv" ∧ f.fields = bp_fields) ↔
      (run evs).correlations ≠ []) ∧
    (∀ p ∈ (run evs).records, p.2 ≠ []) := by
  refine ⟨?_, ?_, ?_, ⟨?_, ?_⟩, bucketsNE_run evs⟩
  · intro hw f hf hcl
    rcases outputFiles_shape (run evs) f hf with h | h | h | h | h
    · rw [h] at hcl; exact absurd hcl.2 (by decide)
    · rw [h.2.1] at hcl; exact absurd hcl.2 (by decide)
    · exact absurd hw h.2.2
    · rw [h.2.1] at hcl; exact absurd hcl.2 (by decide)
    · rw [h.2.1] at hcl; exact absurd hcl.2 (by decide)
  · intro hs f hf hcl
    rcases outputFiles_shape (run evs) f hf with h | h | h | h | h
    · rw [h] at hcl; exact absurd hcl.2 (by decide)
    · rw [h.2.1] at hcl; exact absurd hcl.2 (by decide)
    · rw [h.2.1] at hcl; exact absurd hcl.2 (by decide)
    · exact absurd hs h.2.2
    · rw [h.2.1] at hcl; exact absurd hcl.2 (by decide)
  · intro hp f hf hcl
    rcases outputFiles_shape (run evs) f hf with h | h | h | h | h
    · rw [h] at hcl; exact absurd hcl.2 (by decide)
    · rw [h.2.1] at hcl; exact absurd hcl.2 (by decide)
    · rw [h.2.1] at hcl; exact absurd hcl.2 (by decide)
    · rw [h.2.1] at hcl; exact absurd hcl.2 (by decide)
    · exact absurd hp (by simpa using h.2.2)
  · rintro ⟨f, hf, hpath, hfl⟩
    rcases outputFiles_shape (run evs) f hf with h | h | h | h | h
    · rw [h] at hfl; exact absurd hfl (by decide)
    · exact h.2.2
    · rw [h.2.1] at hfl; exact absurd hfl (by decide)
    · rw [h.2.1] at hfl; exact absurd hfl (by decide)
    · rw [h.2.1] at hfl; exact absurd hfl (by decide)
  · intro hne
    have hie : (run evs).correlations.isEmpty = false := by
      cases hc : (run evs).correlations with
      | nil => exact absurd hc hne
      | cons a as => simp
    refine ⟨{ path := "blood_pressure.csv", fields := bp_fields,
              rows := ((run evs).correlations.map mkBpRow).map BPRow.toCells },
            ?_, rfl, rfl⟩
    simp only [outputFiles, hie, Bool.false_eq_true, if_false]
    apply List.mem_append_left
    apply List.mem_append_left
    apply List.mem_append_left
    apply List.mem_append_right
    exact List.mem_singleton.mpr rfl

/-- Witness: a run with one Correlation and nothing else yields the
blood-pressure file and, since its workouts bucket is empty, the file
emitted is not the workouts table. -/
theorem c8_witness :
    (run wBpEvs).correlations ≠ [] ∧
    ¬(({ path := "blood_pressure.csv", fields := bp_fields,
         rows := ((run wBpEvs).correlations.map mkBpRow).map BPRow.toCells } : OutFile).path =
          "workouts.csv" ∧
      ({ path := "blood_pressure.csv", fields := bp_fields,
         rows := ((run wBpEvs).correlations.map mkBpRow).map BPRow.toCells } : OutFile).fields =
          workout_fields) := by
  constructor
  · exact (c8_empty_buckets wBpEvs).2.2.2.1.mp (by decide)
  · exact (c8_empty_buckets wBpEvs).1 (by decide) _ (by decide)

end Convert
